import Mathlib

/-!
Verification development for the comparison-training orchestrator of
`rasa/core/train.py`.

The shallow embedding below translates the orchestration core of the source
file into Lean:

* `osPathJoin` models `os.path.join` on two POSIX path components.
* `runPath` models the output-path computation
  `os.path.join(output_path, 'run_' + str(r + 1), policy_name + str(current_round))`
  (lines 133-135 of the source).
* `pyRound` models Python 3 `round` on exact rational inputs:
  round-half-to-even.
* `story_range` models the list comprehension
  `[no_stories - round((x / 100.0) * no_stories) for x in cmdline_args.percentages]`
  (line 188), computed over exact rationals.
* `cellOf` models one grid-cell preparation of `train_comparison_models`
  (lines 126-135): the `len(policies) > 1` check raising `ValueError`, the
  `policies[0]` access (which raises `IndexError` on an empty configuration),
  and the output-path computation using
  `current_round = exclusion_percentages.index(i) + 1` (line 123), where
  `.index` returns the index of the FIRST occurrence of the value.
* `runGrid` / `train_comparison_models` model the triply nested loop
  (lines 119-147): runs, then exclusion percentages, then policy configs, each
  cell invoking the external Trainer collaborator (modelled as a boolean
  function deciding success); the first error aborts the remaining grid.
* `do_compare_training` models lines 171-192: run the grid, then (only on
  full success) compute `story_range` and write `num_stories.json`.
  Iterating an absent (`None`) percentage sequence in the comprehension is a
  `TypeError`, modelled by `OrchError.typeErr`.
* `do_interactive_learning` models lines 195-208: the `core and finetune`
  mutual-exclusion check raising `ValueError`, else forwarding to the external
  interactive-learning collaborator.

External collaborators (the Trainer, the story-corpus loader, the config
loader, the interactive session) are parameters: the Trainer is a function
from the cell to success/failure, a loaded policy configuration is the list
of its policies (each carrying its kind identifier, i.e.
`type(policies[0]).__name__`), and the corpus size is a natural number.
-/

/-- A single policy inside a loaded policy configuration; `kind` is the
policy's type name (`type(p).__name__` in the source). -/
structure Policy where
  kind : String
deriving DecidableEq

/-- Model of `os.path.join a b` for POSIX paths: if `b` is absolute it wins;
joining onto the empty path yields `b`; a trailing separator on `a` is not
duplicated. -/
def osPathJoin (a b : String) : String :=
  if b.data.head? = some '/' then b
  else if a.data = [] then b
  else if a.data.getLast? = some '/' then a ++ b
  else a ++ "/" ++ b

/-- The output path of one training cell:
`os.path.join(output_path, 'run_' + str(run_index), policy_name + str(round_index))`
with both indices rendered by `str` (decimal, no padding), source lines 133-135. -/
def runPath (output_path : String) (run_index : ℕ) (policy_name : String)
    (round_index : ℕ) : String :=
  osPathJoin (osPathJoin output_path ("run_" ++ Nat.repr run_index))
    (policy_name ++ Nat.repr round_index)

/-- Python 3 `round` on an exact rational: round half to even. -/
def pyRound (q : ℚ) : ℤ :=
  if q - (⌊q⌋ : ℚ) < 1/2 then ⌊q⌋
  else if (1 : ℚ)/2 < q - (⌊q⌋ : ℚ) then ⌊q⌋ + 1
  else if 2 ∣ ⌊q⌋ then ⌊q⌋ else ⌊q⌋ + 1

/-- Source line 188:
`[no_stories - round((x / 100.0) * no_stories) for x in cmdline_args.percentages]`. -/
def story_range (no_stories : ℕ) (percentages : List ℚ) : List ℤ :=
  percentages.map fun x => (no_stories : ℤ) - pyRound (x / 100 * no_stories)

/-- Stated from the words of claim C1 (NOT from the source): one entry per
percentage, each equal to `round(n - (p/100) * n)`.  Compare with
`story_range`, which is the source's formula `n - round((p/100) * n)`. -/
def spec_story_range (no_stories : ℕ) (percentages : List ℚ) : List ℤ :=
  percentages.map fun x => pyRound ((no_stories : ℚ) - x / 100 * no_stories)

/-- One invocation of the Trainer collaborator: the arguments of the `train`
call of lines 142-147 that the claims talk about, plus the derived
bookkeeping (run index as logged, computed round, policy kind). -/
structure CellCall where
  run_idx : ℕ
  percentage : ℚ
  round : ℕ
  kind : String
  output : String
deriving DecidableEq

/-- The failure modes of the comparison orchestration:
`config` is the `ValueError` of lines 128-130, `index` the `IndexError`
raised by `policies[0]` on an empty configuration (line 132), `train` a
failure of the Trainer collaborator at the given cell, `typeErr` the
`TypeError` of iterating `None` in the comprehension of line 188. -/
inductive OrchError where
  | config : String → OrchError
  | index : OrchError
  | train : CellCall → OrchError
  | typeErr : OrchError
deriving DecidableEq

/-- The cell the orchestrator builds for run `r` (0-based, logged as `r+1`),
percentage value `pct` and a policy of kind `kind`:
`current_round = exclusion_percentages.index(i) + 1` (line 123; index of the
first occurrence of the value) and the output path of lines 133-135. -/
def mkCell (out : String) (ps : List ℚ) (r : ℕ) (pct : ℚ) (kind : String) :
    CellCall :=
  { run_idx := r + 1
    percentage := pct
    round := List.indexOf pct ps + 1
    kind := kind
    output := runPath out (r + 1) kind (List.indexOf pct ps + 1) }

/-- Lines 126-135 for a single cell: load the configuration, raise
`ValueError` if it has more than one policy, read `policies[0]` (an
`IndexError` when empty), and compute the output path. -/
def cellOf (out : String) (ps : List ℚ) (r : ℕ) (pct : ℚ) (cfg : List Policy) :
    Except OrchError CellCall :=
  if cfg.length > 1 then
    Except.error (OrchError.config
      "You can only specify one policy per model for comparison")
  else
    match cfg with
    | [] => Except.error OrchError.index
    | p :: _ => Except.ok (mkCell out ps r pct p.kind)

/-- The grid in loop order (lines 119-125): for each run, for each
percentage value in order, for each policy configuration in order. -/
def gridTriples (runs : ℕ) (ps : List ℚ) (cfgs : List (List Policy)) :
    List (ℕ × ℚ × List Policy) :=
  (List.range runs).flatMap fun r =>
    ps.flatMap fun pct =>
      cfgs.map fun cfg => (r, pct, cfg)

/-- Sequential execution of the grid: each cell is prepared (`cellOf`) and the
Trainer is invoked; the first error (configuration, index, or Trainer failure)
aborts the remaining grid.  Returns the list of Trainer invocations actually
performed, in order, together with the terminal error if any. -/
def runGrid (trainer : CellCall → Bool) (out : String) (ps : List ℚ) :
    List (ℕ × ℚ × List Policy) → List CellCall × Option OrchError
  | [] => ([], none)
  | (r, pct, cfg) :: rest =>
    match cellOf out ps r pct cfg with
    | Except.error e => ([], some e)
    | Except.ok cell =>
      if trainer cell then
        let res := runGrid trainer out ps rest
        (cell :: res.1, res.2)
      else ([cell], some (OrchError.train cell))

/-- Lines 105-147: `exclusion_percentages = exclusion_percentages or []`,
`policy_configs = policy_configs or []`, then the triply nested training
loop. -/
def train_comparison_models (trainer : CellCall → Bool) (output_path : String)
    (exclusion_percentages : Option (List ℚ))
    (policy_configs : Option (List (List Policy))) (runs : ℕ) :
    List CellCall × Option OrchError :=
  let ps := exclusion_percentages.getD []
  let cfgs := policy_configs.getD []
  runGrid trainer output_path ps (gridTriples runs ps cfgs)

/-- Observable outcome of one comparison invocation: the Trainer invocations
performed, the files written (path, JSON integer array), and the terminal
error if any. -/
structure CompareResult where
  trace : List CellCall
  writes : List (String × List ℤ)
  err : Option OrchError
deriving DecidableEq

/-- Lines 171-192: run `train_comparison_models`; an error there propagates
and nothing is written.  On success, count the stories (external collaborator,
the `no_stories` parameter), compute `story_range` over
`cmdline_args.percentages` — iterating `None` raises `TypeError` — and write
it to `os.path.join(out, 'num_stories.json')`. -/
def do_compare_training (trainer : CellCall → Bool) (out : String)
    (percentages : Option (List ℚ)) (configs : Option (List (List Policy)))
    (runs : ℕ) (no_stories : ℕ) : CompareResult :=
  let res := train_comparison_models trainer out percentages configs runs
  match res.2 with
  | some e => ⟨res.1, [], some e⟩
  | none =>
    match percentages with
    | none => ⟨res.1, [], some OrchError.typeErr⟩
    | some ps =>
      ⟨res.1, [(osPathJoin out "num_stories.json", story_range no_stories ps)],
        none⟩

/-- The arguments forwarded to the external interactive-learning session
(lines 203-208). -/
structure SessionCall where
  finetune : Bool
  skip_visualization : Bool
deriving DecidableEq

/-- Lines 195-208: raise `ValueError` when `core and finetune` are both set,
otherwise forward to `interactive.run_interactive_learning`. -/
def do_interactive_learning (core finetune skip_visualization : Bool) :
    Except String SessionCall :=
  if core && finetune then
    Except.error "--core can only be used without --finetune flag."
  else
    Except.ok ⟨finetune, skip_visualization⟩

/-! ### Decimal rendering: `Nat.repr` produces plain decimal digits -/

/-- Plain decimal digit list of `n`, most significant digit first. -/
def digitsRec (n : ℕ) : List Char :=
  if _h : n < 10 then [Nat.digitChar n]
  else digitsRec (n / 10) ++ [Nat.digitChar (n % 10)]
decreasing_by exact Nat.div_lt_self (by omega) (by omega)

/-- Decode a decimal digit list back to a number. -/
def undigits (l : List Char) : ℕ :=
  l.foldl (fun a c => 10 * a + (c.toNat - 48)) 0

theorem digitChar_toNat (k : ℕ) (hk : k < 10) : (Nat.digitChar k).toNat = 48 + k := by
  interval_cases k <;> rfl

theorem digitChar_isDigit (k : ℕ) (hk : k < 10) : (Nat.digitChar k).isDigit = true := by
  interval_cases k <;> rfl

theorem digitsRec_lt (n : ℕ) (h : n < 10) : digitsRec n = [Nat.digitChar n] := by
  rw [digitsRec, dif_pos h]

theorem digitsRec_ge (n : ℕ) (h : ¬ n < 10) :
    digitsRec n = digitsRec (n / 10) ++ [Nat.digitChar (n % 10)] := by
  conv_lhs => rw [digitsRec]
  rw [dif_neg h]

theorem toDigitsCore_eq (fuel : ℕ) : ∀ (n : ℕ) (ds : List Char), n < fuel →
    Nat.toDigitsCore 10 fuel n ds = digitsRec n ++ ds := by
  induction fuel with
  | zero => omega
  | succ f ih =>
    intro n ds hf
    rw [Nat.toDigitsCore]
    by_cases h10 : n / 10 = 0
    · have hn : n < 10 := by omega
      rw [if_pos h10, digitsRec_lt n hn, Nat.mod_eq_of_lt hn]
      simp
    · have hlt : n / 10 < f := by omega
      rw [if_neg h10, ih (n / 10) _ hlt, digitsRec_ge n (by omega)]
      simp

theorem repr_data_eq (n : ℕ) : (Nat.repr n).data = digitsRec n := by
  show (Nat.toDigits 10 n).asString.data = digitsRec n
  rw [Nat.toDigits, toDigitsCore_eq (n + 1) n [] (Nat.lt_succ_self n)]
  simp [List.asString]

theorem undigits_digitsRec (n : ℕ) : undigits (digitsRec n) = n := by
  induction n using Nat.strong_induction_on with
  | _ n ih =>
    by_cases h : n < 10
    · rw [digitsRec_lt n h]
      simp [undigits, digitChar_toNat n h]
    · rw [digitsRec_ge n h]
      unfold undigits
      rw [List.foldl_append]
      have hrec := ih (n / 10) (Nat.div_lt_self (by omega) (by omega))
      unfold undigits at hrec
      rw [hrec]
      simp only [List.foldl_cons, List.foldl_nil]
      rw [digitChar_toNat (n % 10) (Nat.mod_lt n (by omega))]
      omega

theorem repr_data_injective {m n : ℕ} (h : (Nat.repr m).data = (Nat.repr n).data) :
    m = n := by
  rw [repr_data_eq, repr_data_eq] at h
  have := congrArg undigits h
  rwa [undigits_digitsRec, undigits_digitsRec] at this

theorem digitsRec_ne_nil (n : ℕ) : digitsRec n ≠ [] := by
  by_cases h : n < 10
  · rw [digitsRec_lt n h]; simp
  · rw [digitsRec_ge n h]; simp

theorem digitsRec_isDigit (n : ℕ) : ∀ c ∈ digitsRec n, c.isDigit = true := by
  induction n using Nat.strong_induction_on with
  | _ n ih =>
    by_cases h : n < 10
    · rw [digitsRec_lt n h]
      intro c hc
      simp only [List.mem_singleton] at hc
      subst hc
      exact digitChar_isDigit n h
    · rw [digitsRec_ge n h]
      intro c hc
      rcases List.mem_append.mp hc with h1 | h2
      · exact ih (n / 10) (Nat.div_lt_self (by omega) (by omega)) c h1
      · simp only [List.mem_singleton] at h2
        subst h2
        exact digitChar_isDigit (n % 10) (Nat.mod_lt n (by omega))

theorem repr_data_ne_nil (n : ℕ) : (Nat.repr n).data ≠ [] := by
  rw [repr_data_eq]; exact digitsRec_ne_nil n

theorem repr_data_isDigit (n : ℕ) : ∀ c ∈ (Nat.repr n).data, c.isDigit = true := by
  rw [repr_data_eq]; exact digitsRec_isDigit n

theorem ne_slash_of_isDigit {c : Char} (h : c.isDigit = true) : c ≠ '/' := by
  intro he
  subst he
  exact absurd h (by decide)

theorem digitsRec_head_ne_zero : ∀ n : ℕ, 0 < n → (digitsRec n).head? ≠ some '0' := by
  intro n
  induction n using Nat.strong_induction_on with
  | _ n ih =>
    intro hn
    by_cases h : n < 10
    · rw [digitsRec_lt n h]
      have hne : Nat.digitChar n ≠ '0' := by interval_cases n <;> decide
      simpa using hne
    · rw [digitsRec_ge n h, List.head?_append]
      have h1 : 0 < n / 10 := by omega
      have h2 := ih (n / 10) (Nat.div_lt_self (by omega) (by omega)) h1
      cases he : (digitsRec (n / 10)).head? with
      | none => exact absurd (List.head?_eq_none_iff.mp he) (digitsRec_ne_nil (n / 10))
      | some c =>
        rw [he] at h2
        simpa using h2

/-! ### Unique decomposition of the output paths -/

theorem getLast?_append_cons_of_ne_nil {α : Type} (l : List α) (a : α) (m : List α)
    (h : m ≠ []) : (l ++ a :: m).getLast? = m.getLast? := by
  rw [List.getLast?_append, show (a :: m) = [a] ++ m from rfl, List.getLast?_append]
  cases hm : m.getLast? with
  | none => exact absurd (List.getLast?_eq_none_iff.mp hm) h
  | some c => simp

theorem splitSlash : ∀ (l1 l2 m1 m2 : List Char),
    (∀ c ∈ l1, c ≠ '/') → (∀ c ∈ l2, c ≠ '/') →
    l1 ++ '/' :: m1 = l2 ++ '/' :: m2 → l1 = l2 ∧ m1 = m2 := by
  intro l1
  induction l1 with
  | nil =>
    intro l2 m1 m2 _ h2 h
    cases l2 with
    | nil => simpa using h
    | cons b t =>
      exfalso
      simp only [List.nil_append, List.cons_append, List.cons.injEq] at h
      exact h2 b (by simp) h.1.symm
  | cons a t ih =>
    intro l2 m1 m2 h1 h2 h
    cases l2 with
    | nil =>
      exfalso
      simp only [List.nil_append, List.cons_append, List.cons.injEq] at h
      exact h1 a (by simp) h.1
    | cons b t2 =>
      simp only [List.cons_append, List.cons.injEq] at h
      obtain ⟨hab, ht⟩ := h
      obtain ⟨hte, hme⟩ := ih t2 m1 m2 (fun c hc => h1 c (by simp [hc]))
        (fun c hc => h2 c (by simp [hc])) ht
      exact ⟨by rw [hab, hte], hme⟩

theorem append_digits_inj : ∀ (l1 l2 d1 d2 : List Char),
    (∀ c, l1.getLast? = some c → c.isDigit = false) →
    (∀ c, l2.getLast? = some c → c.isDigit = false) →
    (∀ c ∈ d1, c.isDigit = true) → (∀ c ∈ d2, c.isDigit = true) →
    l1 ++ d1 = l2 ++ d2 → l1 = l2 ∧ d1 = d2 := by
  intro l1
  induction l1 with
  | nil =>
    intro l2 d1 d2 _ h2 hd1 _ h
    cases l2 with
    | nil => exact ⟨rfl, by simpa using h⟩
    | cons b t =>
      exfalso
      have hbt : (b :: t : List Char) ≠ [] := by simp
      have hnd : ((b :: t).getLast hbt).isDigit = false :=
        h2 _ (List.getLast?_eq_getLast _ hbt)
      have hmem : (b :: t).getLast hbt ∈ d1 := by
        rw [show d1 = (b :: t) ++ d2 by simpa using h]
        exact List.mem_append_left _ (List.getLast_mem hbt)
      rw [hd1 _ hmem] at hnd
      exact Bool.noConfusion hnd
  | cons a t ih =>
    intro l2 d1 d2 h1 h2 hd1 hd2 h
    cases l2 with
    | nil =>
      exfalso
      have hat : (a :: t : List Char) ≠ [] := by simp
      have hnd : ((a :: t).getLast hat).isDigit = false :=
        h1 _ (List.getLast?_eq_getLast _ hat)
      have hmem : (a :: t).getLast hat ∈ d2 := by
        rw [show d2 = (a :: t) ++ d1 by simpa using h.symm]
        exact List.mem_append_left _ (List.getLast_mem hat)
      rw [hd2 _ hmem] at hnd
      exact Bool.noConfusion hnd
    | cons b t2 =>
      simp only [List.cons_append, List.cons.injEq] at h
      obtain ⟨hab, ht⟩ := h
      have h1' : ∀ c, t.getLast? = some c → c.isDigit = false := by
        intro c hc
        apply h1
        cases t with
        | nil => simp at hc
        | cons x xs => rw [List.getLast?_cons_cons]; exact hc
      have h2' : ∀ c, t2.getLast? = some c → c.isDigit = false := by
        intro c hc
        apply h2
        cases t2 with
        | nil => simp at hc
        | cons x xs => rw [List.getLast?_cons_cons]; exact hc
      obtain ⟨hte, hde⟩ := ih t2 d1 d2 h1' h2' hd1 hd2 ht
      exact ⟨by rw [hab, hte], hde⟩

theorem repr_getLast?_isDigit (k : ℕ) :
    ∃ c, (Nat.repr k).data.getLast? = some c ∧ c.isDigit = true := by
  have hne := repr_data_ne_nil k
  exact ⟨(Nat.repr k).data.getLast hne, List.getLast?_eq_getLast _ hne,
    repr_data_isDigit k _ (List.getLast_mem hne)⟩

theorem osPathJoin_data (a b : String) (hb : b.data.head? ≠ some '/')
    (ha : a.data ≠ []) (ha2 : a.data.getLast? ≠ some '/') :
    (osPathJoin a b).data = a.data ++ '/' :: b.data := by
  unfold osPathJoin
  rw [if_neg hb, if_neg ha, if_neg ha2]
  simp [String.data_append]

theorem runPath_data (out : String) (R : ℕ) (name : String) (k : ℕ)
    (hne : out.data ≠ []) (hsl : out.data.getLast? ≠ some '/')
    (hname : ∀ c ∈ name.data, c ≠ '/') :
    (runPath out R name k).data =
      out.data ++ '/' :: ("run_".data ++ (Nat.repr R).data)
        ++ '/' :: (name.data ++ (Nat.repr k).data) := by
  unfold runPath
  have hrc : ("run_" ++ Nat.repr R).data = "run_".data ++ (Nat.repr R).data :=
    String.data_append _ _
  have hnc : (name ++ Nat.repr k).data = name.data ++ (Nat.repr k).data :=
    String.data_append _ _
  have hinner : (osPathJoin out ("run_" ++ Nat.repr R)).data
      = out.data ++ '/' :: ("run_".data ++ (Nat.repr R).data) := by
    rw [osPathJoin_data out _ ?hb hne hsl, hrc]
    case hb => rw [hrc]; simp [List.head?_append]
  obtain ⟨cR, hcR, hcRd⟩ := repr_getLast?_isDigit R
  have hb2 : (name ++ Nat.repr k).data.head? ≠ some '/' := by
    rw [hnc, List.head?_append]
    cases hnd : name.data with
    | nil =>
      simp only [List.head?_nil, Option.none_or]
      cases hrd : (Nat.repr k).data with
      | nil => exact absurd hrd (repr_data_ne_nil k)
      | cons c cs =>
        simp only [List.head?_cons]
        intro hcc
        injection hcc with hc
        exact ne_slash_of_isDigit (repr_data_isDigit k c (by rw [hrd]; simp)) hc
    | cons c cs =>
      simp only [List.head?_cons]
      show (some c).or ((Nat.repr k).data.head?) ≠ some '/'
      intro hcc
      injection hcc with hc
      exact hname c (by rw [hnd]; simp) hc
  have ha : (osPathJoin out ("run_" ++ Nat.repr R)).data ≠ [] := by
    rw [hinner]; simp
  have ha2 : (osPathJoin out ("run_" ++ Nat.repr R)).data.getLast? ≠ some '/' := by
    rw [hinner, getLast?_append_cons_of_ne_nil _ _ _ (by simp [repr_data_ne_nil R]),
      List.getLast?_append, hcR]
    show (some cR).or ("run_".data.getLast?) ≠ some '/'
    intro hcc
    injection hcc with hc
    exact ne_slash_of_isDigit hcRd hc
  rw [osPathJoin_data _ _ hb2 ha ha2, hinner, hnc]

theorem run_component_chars (R : ℕ) :
    ∀ c ∈ "run_".data ++ (Nat.repr R).data, c ≠ '/' := by
  intro c hc
  rcases List.mem_append.mp hc with h1 | h2
  · have h1' : c ∈ ['r', 'u', 'n', '_'] := h1
    simp only [List.mem_cons, List.mem_singleton, List.not_mem_nil, or_false] at h1'
    rcases h1' with rfl | rfl | rfl | rfl <;> decide
  · exact ne_slash_of_isDigit (repr_data_isDigit R c h2)

/-- The output path determines the run index, the policy name and the round
index, provided the output root is nonempty without a trailing separator and
the policy name contains no separator and does not end in a decimal digit. -/
theorem runPath_inj (out : String) (R1 R2 k1 k2 : ℕ) (name1 name2 : String)
    (hne : out.data ≠ []) (hsl : out.data.getLast? ≠ some '/')
    (hn1 : ∀ c ∈ name1.data, c ≠ '/') (hn2 : ∀ c ∈ name2.data, c ≠ '/')
    (hl1 : ∀ c, name1.data.getLast? = some c → c.isDigit = false)
    (hl2 : ∀ c, name2.data.getLast? = some c → c.isDigit = false)
    (h : runPath out R1 name1 k1 = runPath out R2 name2 k2) :
    R1 = R2 ∧ name1 = name2 ∧ k1 = k2 := by
  have hd := congrArg String.data h
  rw [runPath_data out R1 name1 k1 hne hsl hn1,
    runPath_data out R2 name2 k2 hne hsl hn2, List.append_assoc, List.append_assoc] at hd
  have hd2 := List.append_cancel_left hd
  simp only [List.cons_append] at hd2
  injection hd2 with _ hd3
  obtain ⟨hrc, hnc⟩ := splitSlash _ _ _ _ (run_component_chars R1)
    (run_component_chars R2) hd3
  have hR : R1 = R2 := repr_data_injective (List.append_cancel_left hrc)
  obtain ⟨hname, hk⟩ := append_digits_inj _ _ _ _ hl1 hl2
    (repr_data_isDigit k1) (repr_data_isDigit k2) hnc
  exact ⟨hR, String.ext hname, repr_data_injective hk⟩

/-! ### Grid execution lemmas -/

/-- Kind of the first policy of a loaded configuration (`type(policies[0]).__name__`). -/
def kindHead : List Policy → String
  | [] => ""
  | p :: _ => p.kind

/-- The cell built for a grid triple whose configuration passed validation. -/
def gridCell (out : String) (ps : List ℚ) (t : ℕ × ℚ × List Policy) : CellCall :=
  mkCell out ps t.1 t.2.1 (kindHead t.2.2)

theorem cellOf_singleton (out : String) (ps : List ℚ) (r : ℕ) (pct : ℚ)
    (cfg : List Policy) (p : Policy) (hp : cfg = [p]) :
    cellOf out ps r pct cfg = Except.ok (gridCell out ps (r, pct, cfg)) := by
  subst hp
  rfl

theorem runGrid_all_ok (trainer : CellCall → Bool) (out : String) (ps : List ℚ) :
    ∀ l : List (ℕ × ℚ × List Policy),
    (∀ t ∈ l, ∃ p, t.2.2 = [p]) → (∀ c, trainer c = true) →
    runGrid trainer out ps l = (l.map (gridCell out ps), none) := by
  intro l
  induction l with
  | nil => intro _ _; rfl
  | cons t rest ih =>
    intro hok htr
    obtain ⟨r, pct, cfg⟩ := t
    obtain ⟨p, hp⟩ := hok _ (List.mem_cons_self _ _)
    rw [runGrid, cellOf_singleton out ps r pct cfg p hp]
    simp [htr, ih (fun t ht => hok t (List.mem_cons_of_mem _ ht)) htr]

theorem runGrid_append_ok (trainer : CellCall → Bool) (out : String) (ps : List ℚ)
    (l1 l2 : List (ℕ × ℚ × List Policy))
    (hok : ∀ t ∈ l1, ∃ p, t.2.2 = [p]) (htr : ∀ c, trainer c = true) :
    runGrid trainer out ps (l1 ++ l2) =
      (l1.map (gridCell out ps) ++ (runGrid trainer out ps l2).1,
        (runGrid trainer out ps l2).2) := by
  induction l1 with
  | nil => simp
  | cons t rest ih =>
    obtain ⟨r, pct, cfg⟩ := t
    obtain ⟨p, hp⟩ := hok _ (List.mem_cons_self _ _)
    rw [List.cons_append, runGrid, cellOf_singleton out ps r pct cfg p hp]
    simp [htr, ih (fun t ht => hok t (List.mem_cons_of_mem _ ht))]

theorem runGrid_fails_at (trainer : CellCall → Bool) (out : String) (ps : List ℚ) :
    ∀ (l : List (ℕ × ℚ × List Policy)) (m : ℕ) (hm : m < l.length),
    (∀ t ∈ l, ∃ p, t.2.2 = [p]) →
    (∀ i (hi : i < m), trainer (gridCell out ps (l.get ⟨i, lt_trans hi hm⟩)) = true) →
    trainer (gridCell out ps (l.get ⟨m, hm⟩)) = false →
    runGrid trainer out ps l =
      ((l.take (m + 1)).map (gridCell out ps),
        some (OrchError.train (gridCell out ps (l.get ⟨m, hm⟩)))) := by
  intro l
  induction l with
  | nil => intro m hm; simp at hm
  | cons t rest ih =>
    intro m hm hok hbefore hfail
    obtain ⟨r, pct, cfg⟩ := t
    obtain ⟨p, hp⟩ := hok _ (List.mem_cons_self _ _)
    cases m with
    | zero =>
      rw [runGrid, cellOf_singleton out ps r pct cfg p hp]
      simp only [List.get] at hfail
      simp [hfail, List.take]
    | succ m' =>
      have htr0 : trainer (gridCell out ps (r, pct, cfg)) = true := hbefore 0 (Nat.succ_pos m')
      rw [runGrid, cellOf_singleton out ps r pct cfg p hp]
      have hm' : m' < rest.length := Nat.lt_of_succ_lt_succ hm
      have hrec := ih m' hm' (fun t ht => hok t (List.mem_cons_of_mem _ ht))
        (fun i hi => hbefore (i + 1) (Nat.succ_lt_succ hi)) hfail
      simp [htr0, hrec, List.take]

theorem flatMap_length_uniform {α β : Type} (l : List α) (f : α → List β) (m : ℕ)
    (hm : ∀ a ∈ l, (f a).length = m) : (l.flatMap f).length = l.length * m := by
  induction l with
  | nil => simp
  | cons a t ih =>
    rw [List.flatMap_cons, List.length_append, hm a (List.mem_cons_self _ _),
      ih (fun a ha => hm a (List.mem_cons_of_mem _ ha)), List.length_cons]
    ring

theorem flatMap_getElem? {α β : Type} (l : List α) (f : α → List β) (m : ℕ)
    (hm : ∀ a ∈ l, (f a).length = m) :
    ∀ (q s : ℕ) (hq : q < l.length), s < m →
    (l.flatMap f)[q * m + s]? = (f (l.get ⟨q, hq⟩))[s]? := by
  induction l with
  | nil => intro q s hq; simp at hq
  | cons a t ih =>
    intro q s hq hs
    cases q with
    | zero =>
      rw [List.flatMap_cons, Nat.zero_mul, Nat.zero_add,
        List.getElem?_append_left (by rw [hm a (List.mem_cons_self _ _)]; exact hs)]
      rfl
    | succ q' =>
      rw [List.flatMap_cons,
        List.getElem?_append_right (by rw [hm a (List.mem_cons_self _ _)]; nlinarith)]
      have hq' : q' < t.length := Nat.lt_of_succ_lt_succ hq
      have hidx : (q' + 1) * m + s - (f a).length = q' * m + s := by
        rw [hm a (List.mem_cons_self _ _)]
        ring_nf
        omega
      rw [hidx, ih (fun a ha => hm a (List.mem_cons_of_mem _ ha)) q' s hq' hs]
      rfl

theorem gridTriples_inner_length (ps : List ℚ) (cfgs : List (List Policy)) (r : ℕ) :
    (ps.flatMap fun pct => cfgs.map fun cfg => (r, pct, cfg)).length
      = ps.length * cfgs.length :=
  flatMap_length_uniform ps _ cfgs.length (fun _ _ => List.length_map _ _)

theorem gridTriples_length (runs : ℕ) (ps : List ℚ) (cfgs : List (List Policy)) :
    (gridTriples runs ps cfgs).length = runs * (ps.length * cfgs.length) := by
  unfold gridTriples
  rw [flatMap_length_uniform _ _ (ps.length * cfgs.length)
    (fun r _ => gridTriples_inner_length ps cfgs r), List.length_range]

theorem gridTriples_getElem? (runs : ℕ) (ps : List ℚ) (cfgs : List (List Policy))
    (r i k : ℕ) (hr : r < runs) (hi : i < ps.length) (hk : k < cfgs.length) :
    (gridTriples runs ps cfgs)[r * (ps.length * cfgs.length) + (i * cfgs.length + k)]?
      = some (r, ps.get ⟨i, hi⟩, cfgs.get ⟨k, hk⟩) := by
  unfold gridTriples
  have hik : i * cfgs.length + k < ps.length * cfgs.length := by nlinarith
  rw [flatMap_getElem? _ _ (ps.length * cfgs.length)
      (fun a _ => gridTriples_inner_length ps cfgs a) r (i * cfgs.length + k)
      (by simpa using hr) hik]
  simp only [List.get_eq_getElem, List.getElem_range]
  rw [flatMap_getElem? _ _ cfgs.length (fun a _ => List.length_map _ _) i k hi hk,
    List.getElem?_map, List.getElem?_eq_getElem hk]
  simp

theorem gridTriples_mem (runs : ℕ) (ps : List ℚ) (cfgs : List (List Policy))
    (t : ℕ × ℚ × List Policy) (ht : t ∈ gridTriples runs ps cfgs) :
    t.1 < runs ∧ t.2.1 ∈ ps ∧ t.2.2 ∈ cfgs := by
  unfold gridTriples at ht
  rw [List.mem_flatMap] at ht
  obtain ⟨r, hr, ht⟩ := ht
  rw [List.mem_flatMap] at ht
  obtain ⟨pct, hpct, ht⟩ := ht
  rw [List.mem_map] at ht
  obtain ⟨cfg, hcfg, rfl⟩ := ht
  exact ⟨List.mem_range.mp hr, hpct, hcfg⟩

theorem gridTriples_singleton (ps : List ℚ) (cfgs : List (List Policy)) (runs : ℕ)
    (hok : ∀ c ∈ cfgs, c.length = 1) :
    ∀ t ∈ gridTriples runs ps cfgs, ∃ p, t.2.2 = [p] := by
  intro t ht
  exact List.length_eq_one.mp (hok t.2.2 (gridTriples_mem runs ps cfgs t ht).2.2)

theorem train_comparison_models_ok (trainer : CellCall → Bool) (out : String)
    (ps : List ℚ) (cfgs : List (List Policy)) (runs : ℕ)
    (hok : ∀ c ∈ cfgs, c.length = 1) (htr : ∀ c, trainer c = true) :
    train_comparison_models trainer out (some ps) (some cfgs) runs
      = ((gridTriples runs ps cfgs).map (gridCell out ps), none) := by
  unfold train_comparison_models
  simp only [Option.getD_some]
  exact runGrid_all_ok trainer out ps _ (gridTriples_singleton ps cfgs runs hok) htr

/-! ### Claim theorems -/

/-- Claim C1, counterexample: at corpus size 5 and percentage 10 the code
(line 188) computes `5 - round(0.5) = 5`, while the claim's formula
`round(5 - 0.5) = round(4.5)` yields 4 under round-half-to-even. -/
theorem story_range_formula_counterexample :
    story_range 5 [10] = [5] ∧ spec_story_range 5 [10] = [4] := by
  have h1 : (10 : ℚ) / 100 * ((5 : ℕ) : ℚ) = 1 / 2 := by norm_num
  have h2 : ((5 : ℕ) : ℚ) - (10 : ℚ) / 100 * ((5 : ℕ) : ℚ) = 9 / 2 := by norm_num
  have hf1 : ⌊(1 / 2 : ℚ)⌋ = 0 := by norm_num
  have hf2 : ⌊(9 / 2 : ℚ)⌋ = 4 := by norm_num
  constructor
  · simp only [story_range, List.map_cons, List.map_nil, h1]
    rw [pyRound, hf1, if_neg (by norm_num), if_neg (by norm_num), if_pos (by norm_num)]
    norm_num
  · simp only [spec_story_range, List.map_cons, List.map_nil, h2]
    rw [pyRound, hf2, if_neg (by norm_num), if_neg (by norm_num), if_pos (by norm_num)]

/-- Claim C1 (amended): on a successful comparison invocation the persisted
summary at `out/num_stories.json` is written exactly once and is the ordered
sequence with one entry per percentage (same order), each equal to
`n - round((p/100) * n)` (not `round(n - (p/100) * n)`). -/
theorem num_stories_summary (trainer : CellCall → Bool) (out : String) (ps : List ℚ)
    (configs : Option (List (List Policy))) (runs no_stories : ℕ)
    (hok : (do_compare_training trainer out (some ps) configs runs no_stories).err
      = none) :
    (do_compare_training trainer out (some ps) configs runs no_stories).writes =
      [(osPathJoin out "num_stories.json",
        ps.map fun p => (no_stories : ℤ) - pyRound (p / 100 * no_stories))] ∧
    (ps.map fun p => (no_stories : ℤ) - pyRound (p / 100 * no_stories)).length
      = ps.length := by
  refine ⟨?_, by simp⟩
  unfold do_compare_training at hok ⊢
  rcases h2 : (train_comparison_models trainer out (some ps) configs runs).2 with _ | e
  · simp [h2, story_range]
  · simp [h2] at hok

/-- Claim C1 witness: a concrete successful invocation writing the summary. -/
theorem num_stories_summary_witness :
    (do_compare_training (fun _ => true) "out" (some [(10 : ℚ)])
      (some [[⟨"P"⟩]]) 1 5).err = none ∧
    (do_compare_training (fun _ => true) "out" (some [(10 : ℚ)])
      (some [[⟨"P"⟩]]) 1 5).writes =
      [(osPathJoin "out" "num_stories.json",
        [(10 : ℚ)].map fun p => ((5 : ℕ) : ℤ) - pyRound (p / 100 * (5 : ℕ)))] :=
  ⟨by decide, (num_stories_summary (fun _ => true) "out" [(10 : ℚ)]
    (some [[⟨"P"⟩]]) 1 5 (by decide)).1⟩

/-- Claim C4, counterexample: a configuration with 0 policies is NOT rejected
by the validation (`len(policies) > 1` passes); the cell fails with the
IndexError of `policies[0]` instead of the comparison ConfigurationError. -/
theorem zero_policies_counterexample :
    cellOf "out" [(10 : ℚ)] 0 10 [] = Except.error OrchError.index ∧
    (Except.error OrchError.index : Except OrchError CellCall) ≠
      Except.error (OrchError.config
        "You can only specify one policy per model for comparison") := by
  exact ⟨rfl, by simp⟩

/-- Claim C4 (amended): the comparison-mode cell accepts a configuration iff
it has exactly one policy; 2 or more policies are rejected with the
`ValueError` of lines 128-130, while 0 policies escape that check and fail
with an `IndexError` at `policies[0]` (line 132). -/
theorem single_policy_validation (out : String) (ps : List ℚ) (r : ℕ) (pct : ℚ)
    (cfg : List Policy) :
    ((∃ c, cellOf out ps r pct cfg = Except.ok c) ↔ cfg.length = 1) ∧
    (1 < cfg.length → cellOf out ps r pct cfg = Except.error (OrchError.config
      "You can only specify one policy per model for comparison")) ∧
    (cfg = [] → cellOf out ps r pct cfg = Except.error OrchError.index) := by
  rcases cfg with _ | ⟨p, rest⟩
  · simp [cellOf]
  · rcases rest with _ | ⟨q, rest2⟩
    · simp [cellOf]
    · refine ⟨?_, ?_, by simp⟩
      · simp [cellOf]
      · intro _
        have hlen : 1 < (p :: q :: rest2).length := by simp
        unfold cellOf
        rw [if_pos hlen]

/-- Claim C4 witness: the three behaviours at concrete configurations. -/
theorem single_policy_validation_witness :
    ((∃ c, cellOf "out" [(10 : ℚ)] 0 10 [⟨"A"⟩] = Except.ok c) ↔
      ([(⟨"A"⟩ : Policy)].length = 1)) ∧
    (1 < [(⟨"A"⟩ : Policy)].length → cellOf "out" [(10 : ℚ)] 0 10 [⟨"A"⟩] =
      Except.error (OrchError.config
        "You can only specify one policy per model for comparison")) ∧
    ([(⟨"A"⟩ : Policy)] = [] → cellOf "out" [(10 : ℚ)] 0 10 [⟨"A"⟩] =
      Except.error OrchError.index) :=
  single_policy_validation "out" [(10 : ℚ)] 0 10 [⟨"A"⟩]

/-- Claim C5: the cell output path is the exact join
`output_root / ("run_" ++ decimal run_index) / (policy_name ++ decimal round_index)`
with the indices rendered as plain decimal digits (no zero-padding: the
leading digit of a positive index is never `'0'`), and the concrete instance
of the claim holds literally. -/
theorem run_path_exact_join :
    (∀ (root : String) (run_index round_index : ℕ) (policy_name : String),
      runPath root run_index policy_name round_index =
        osPathJoin (osPathJoin root ("run_" ++ (digitsRec run_index).asString))
          (policy_name ++ (digitsRec round_index).asString)) ∧
    (∀ n : ℕ, 0 < n → (digitsRec n).head? ≠ some '0') ∧
    runPath "root" 2 "MemoizationPolicy" 3 = "root/run_2/MemoizationPolicy3" := by
  refine ⟨?_, digitsRec_head_ne_zero, by decide⟩
  intro root R k name
  unfold runPath
  rw [show (digitsRec R).asString = Nat.repr R from String.ext (repr_data_eq R).symm,
    show (digitsRec k).asString = Nat.repr k from String.ext (repr_data_eq k).symm]

/-- Claim C5 witness: the join property and no-zero-padding at concrete inputs. -/
theorem run_path_exact_join_witness :
    runPath "out" 1 "KerasPolicy" 2 =
      osPathJoin (osPathJoin "out" ("run_" ++ (digitsRec 1).asString))
        ("KerasPolicy" ++ (digitsRec 2).asString) ∧
    0 < 12 ∧ (digitsRec 12).head? ≠ some '0' :=
  ⟨run_path_exact_join.1 "out" 1 2 "KerasPolicy", by decide,
    run_path_exact_join.2.1 12 (by decide)⟩

/-- Claim C7: interactive learning fails with the mutual-exclusion
`ValueError` when both `core` and `finetune` are set, never reaching the
session collaborator, and otherwise forwards `finetune` and
`skip_visualization` to the collaborator. -/
theorem interactive_mutual_exclusion (core finetune skip_visualization : Bool) :
    (core = true ∧ finetune = true →
      do_interactive_learning core finetune skip_visualization =
        Except.error "--core can only be used without --finetune flag.") ∧
    (¬(core = true ∧ finetune = true) →
      do_interactive_learning core finetune skip_visualization =
        Except.ok ⟨finetune, skip_visualization⟩) := by
  cases core <;> cases finetune <;> simp [do_interactive_learning]

/-- Claim C7 witness: both branches at concrete flag values. -/
theorem interactive_mutual_exclusion_witness :
    do_interactive_learning true true false =
      Except.error "--core can only be used without --finetune flag." ∧
    do_interactive_learning false true true = Except.ok ⟨true, true⟩ :=
  ⟨(interactive_mutual_exclusion true true false).1 ⟨rfl, rfl⟩,
    (interactive_mutual_exclusion false true true).2 (by simp)⟩

theorem gridTriples_nil_left (runs : ℕ) (cfgs : List (List Policy)) :
    gridTriples runs [] cfgs = [] := by
  unfold gridTriples
  simp

theorem gridTriples_nil_right (runs : ℕ) (ps : List ℚ) :
    gridTriples runs ps ([] : List (List Policy)) = [] := by
  unfold gridTriples
  simp

/-- Claim C9, counterexample: with an absent (`None`) percentage sequence the
orchestrator performs zero Trainer invocations and returns normally, but the
summary step then iterates `None` (`TypeError`), so `num_stories.json` is NOT
written — contradicting the claim that it is still written. -/
theorem absent_percentages_counterexample :
    (do_compare_training (fun _ => true) "out" none (some [[⟨"P"⟩]]) 1 5).trace
      = [] ∧
    (do_compare_training (fun _ => true) "out" none (some [[⟨"P"⟩]]) 1 5).writes
      = [] ∧
    (do_compare_training (fun _ => true) "out" none (some [[⟨"P"⟩]]) 1 5).err
      = some OrchError.typeErr := by
  exact ⟨rfl, rfl, rfl⟩

/-- Claim C9 (amended): with an empty percentage sequence or an empty or
absent policy-config sequence, the orchestrator performs zero Trainer
invocations and `num_stories.json` is written (the empty array when the
percentage sequence is empty); with an ABSENT percentage sequence the
orchestrator still performs zero invocations and returns normally, but the
summary step fails with a `TypeError` and nothing is written. -/
theorem empty_or_absent_inputs (trainer : CellCall → Bool) (out : String)
    (runs no_stories : ℕ) :
    (∀ cfgs : List (List Policy),
      do_compare_training trainer out (some []) (some cfgs) runs no_stories =
        ⟨[], [(osPathJoin out "num_stories.json", [])], none⟩) ∧
    (∀ ps : List ℚ,
      do_compare_training trainer out (some ps) (some []) runs no_stories =
        ⟨[], [(osPathJoin out "num_stories.json", story_range no_stories ps)],
          none⟩) ∧
    (∀ ps : List ℚ,
      do_compare_training trainer out (some ps) none runs no_stories =
        do_compare_training trainer out (some ps) (some []) runs no_stories) ∧
    (∀ cfgs : List (List Policy),
      do_compare_training trainer out none (some cfgs) runs no_stories =
        ⟨[], [], some OrchError.typeErr⟩) := by
  refine ⟨?_, ?_, ?_, ?_⟩
  · intro cfgs
    unfold do_compare_training train_comparison_models
    simp [gridTriples_nil_left, runGrid, story_range]
  · intro ps
    unfold do_compare_training train_comparison_models
    simp [gridTriples_nil_right, runGrid]
  · intro ps
    unfold do_compare_training train_comparison_models
    simp [gridTriples_nil_right]
  · intro cfgs
    unfold do_compare_training train_comparison_models
    simp [gridTriples_nil_left, runGrid]

/-- Claim C3, counterexample: with the duplicate sequence `[50, 50]` the cell
iterated at 1-based position 2 gets round index 1 (the first occurrence of
the value 50), not its position 2. -/
theorem round_index_duplicates_counterexample :
    ((train_comparison_models (fun _ => true) "out" (some [50, 50])
        (some [[⟨"P"⟩]]) 1).1.map CellCall.round)[1]? = some 1 ∧
    (1 : ℕ) ≠ 2 := by
  exact ⟨by decide, by decide⟩

/-- Claim C3 (amended): the 1-based round index used for the cell at grid
position (run r, percentage position i, config k) is
`1 + index of the FIRST occurrence of the percentage value` (line 123); it
equals the iterated position `i + 1` whenever the percentage sequence has no
duplicate values, but not in general. -/
theorem round_index_first_occurrence (trainer : CellCall → Bool) (out : String)
    (ps : List ℚ) (cfgs : List (List Policy)) (runs : ℕ)
    (hok : ∀ c ∈ cfgs, c.length = 1) (htr : ∀ c, trainer c = true)
    (r i k : ℕ) (hr : r < runs) (hi : i < ps.length) (hk : k < cfgs.length) :
    ∃ c : CellCall,
      (train_comparison_models trainer out (some ps) (some cfgs) runs).1[
        r * (ps.length * cfgs.length) + (i * cfgs.length + k)]? = some c ∧
      c.round = List.indexOf (ps.get ⟨i, hi⟩) ps + 1 ∧
      (ps.Nodup → c.round = i + 1) := by
  rw [train_comparison_models_ok trainer out ps cfgs runs hok htr]
  refine ⟨gridCell out ps (r, ps.get ⟨i, hi⟩, cfgs.get ⟨k, hk⟩), ?_, rfl, ?_⟩
  · rw [List.getElem?_map, gridTriples_getElem? runs ps cfgs r i k hr hi hk]
    rfl
  · intro hnd
    show List.indexOf (ps.get ⟨i, hi⟩) ps + 1 = i + 1
    rw [List.get_eq_getElem, List.indexOf_getElem hnd i hi]

/-- Claim C3 witness: at the duplicate-free sequence `[10, 20]` the second
position receives round index 2. -/
theorem round_index_first_occurrence_witness :
    ∃ c : CellCall,
      (train_comparison_models (fun _ => true) "out" (some [10, 20])
        (some [[⟨"P"⟩]]) 1).1[1]? = some c ∧
      c.round = List.indexOf (([10, 20] : List ℚ).get ⟨1, by decide⟩) [10, 20] + 1 ∧
      (([10, 20] : List ℚ).Nodup → c.round = 1 + 1) :=
  round_index_first_occurrence (fun _ => true) "out" [10, 20] [[⟨"P"⟩]] 1
    (by decide) (fun _ => rfl) 0 1 0 (by decide) (by decide) (by decide)

/-- Claim C10: two positions of the percentage sequence holding the same
value yield, within the same run and policy config, the same computed round
index and hence the same output path — the later cell overwrites the
earlier cell's artifact. -/
theorem duplicate_percentages_collide (trainer : CellCall → Bool) (out : String)
    (ps : List ℚ) (cfgs : List (List Policy)) (runs : ℕ)
    (hok : ∀ c ∈ cfgs, c.length = 1) (htr : ∀ c, trainer c = true)
    (r i j k : ℕ) (hr : r < runs) (hi : i < ps.length) (hj : j < ps.length)
    (hk : k < cfgs.length) (hij : i ≠ j)
    (hval : ps.get ⟨i, hi⟩ = ps.get ⟨j, hj⟩) :
    ∃ c1 c2 : CellCall,
      (train_comparison_models trainer out (some ps) (some cfgs) runs).1[
        r * (ps.length * cfgs.length) + (i * cfgs.length + k)]? = some c1 ∧
      (train_comparison_models trainer out (some ps) (some cfgs) runs).1[
        r * (ps.length * cfgs.length) + (j * cfgs.length + k)]? = some c2 ∧
      r * (ps.length * cfgs.length) + (i * cfgs.length + k) ≠
        r * (ps.length * cfgs.length) + (j * cfgs.length + k) ∧
      c1.round = c2.round ∧ c1.output = c2.output := by
  rw [train_comparison_models_ok trainer out ps cfgs runs hok htr]
  refine ⟨gridCell out ps (r, ps.get ⟨i, hi⟩, cfgs.get ⟨k, hk⟩),
    gridCell out ps (r, ps.get ⟨j, hj⟩, cfgs.get ⟨k, hk⟩), ?_, ?_, ?_, ?_, ?_⟩
  · rw [List.getElem?_map, gridTriples_getElem? runs ps cfgs r i k hr hi hk]
    rfl
  · rw [List.getElem?_map, gridTriples_getElem? runs ps cfgs r j k hr hj hk]
    rfl
  · have hne : i * cfgs.length ≠ j * cfgs.length := by
      intro he
      exact hij (Nat.eq_of_mul_eq_mul_right (by omega) he)
    omega
  · show List.indexOf (ps.get ⟨i, hi⟩) ps + 1 = List.indexOf (ps.get ⟨j, hj⟩) ps + 1
    rw [hval]
  · show runPath out (r + 1) (kindHead (cfgs.get ⟨k, hk⟩))
        (List.indexOf (ps.get ⟨i, hi⟩) ps + 1)
      = runPath out (r + 1) (kindHead (cfgs.get ⟨k, hk⟩))
        (List.indexOf (ps.get ⟨j, hj⟩) ps + 1)
    rw [hval]

/-- Claim C10 witness: with `[50, 50]` the two cells of run 1 for the same
config occupy distinct grid positions yet share round index and output path. -/
theorem duplicate_percentages_collide_witness :
    ∃ c1 c2 : CellCall,
      (train_comparison_models (fun _ => true) "out" (some [50, 50])
        (some [[⟨"P"⟩]]) 1).1[0]? = some c1 ∧
      (train_comparison_models (fun _ => true) "out" (some [50, 50])
        (some [[⟨"P"⟩]]) 1).1[1]? = some c2 ∧
      (0 : ℕ) ≠ 1 ∧ c1.round = c2.round ∧ c1.output = c2.output :=
  duplicate_percentages_collide (fun _ => true) "out" [50, 50] [[⟨"P"⟩]] 1
    (by decide) (fun _ => rfl) 0 0 1 0 (by decide) (by decide) (by decide)
    (by decide) (by decide) (by decide)

/-- Claim C8, counterexample: with config list `[[A], [B, C]]` the invalid
second config is only detected after the first cell already invoked the
Trainer: one Trainer invocation precedes the ConfigurationError, so the error
is NOT raised before any Trainer invocation. -/
theorem invalid_config_counterexample :
    (do_compare_training (fun _ => true) "out" (some [(10 : ℚ)])
      (some [[⟨"A"⟩], [⟨"B"⟩, ⟨"C"⟩]]) 1 5).trace.length = 1 ∧
    (do_compare_training (fun _ => true) "out" (some [(10 : ℚ)])
      (some [[⟨"A"⟩], [⟨"B"⟩, ⟨"C"⟩]]) 1 5).err =
      some (OrchError.config
        "You can only specify one policy per model for comparison") := by
  exact ⟨by decide, by decide⟩

/-- Claim C8 (amended): a multi-policy config raises the ConfigurationError
at the FIRST grid cell that loads it (first run, first percentage): the
failing cell's Trainer is not invoked, no later cell executes and nothing is
written, but the cells of valid configs occurring before it in the config
list have already invoked the Trainer; the error precedes all Trainer
invocations only when the invalid config is first in the list. -/
theorem invalid_config_aborts (trainer : CellCall → Bool) (out : String)
    (p0 : ℚ) (ps' : List ℚ) (good : List (List Policy)) (bad : List Policy)
    (rest : List (List Policy)) (runs no_stories : ℕ) (hruns : 0 < runs)
    (hgood : ∀ c ∈ good, c.length = 1) (hbad : 1 < bad.length)
    (htr : ∀ c, trainer c = true) :
    do_compare_training trainer out (some (p0 :: ps')) (some (good ++ bad :: rest))
        runs no_stories =
      ⟨good.map (fun c => gridCell out (p0 :: ps') (0, p0, c)), [],
        some (OrchError.config
          "You can only specify one policy per model for comparison")⟩ := by
  obtain ⟨n, rfl⟩ : ∃ n, runs = n + 1 := ⟨runs - 1, by omega⟩
  have hsplit : gridTriples (n + 1) (p0 :: ps') (good ++ bad :: rest)
      = (good.map fun c => ((0 : ℕ), p0, c)) ++ (((0 : ℕ), p0, bad) ::
        ((rest.map fun c => ((0 : ℕ), p0, c)) ++
          ((ps'.flatMap fun pct =>
            (good ++ bad :: rest).map fun cfg => ((0 : ℕ), pct, cfg)) ++
          (((List.range n).map Nat.succ).flatMap fun r =>
            (p0 :: ps').flatMap fun pct =>
              (good ++ bad :: rest).map fun cfg => (r, pct, cfg))))) := by
    unfold gridTriples
    rw [List.range_succ_eq_map, List.flatMap_cons, List.flatMap_cons,
      List.map_append, List.map_cons]
    simp [List.append_assoc]
  have hgoodtr : ∀ t ∈ (good.map fun c => ((0 : ℕ), p0, c)), ∃ p, t.2.2 = [p] := by
    intro t ht
    rw [List.mem_map] at ht
    obtain ⟨c, hc, rfl⟩ := ht
    exact List.length_eq_one.mp (hgood c hc)
  have hbadcell : cellOf out (p0 :: ps') 0 p0 bad = Except.error (OrchError.config
      "You can only specify one policy per model for comparison") := by
    unfold cellOf
    rw [if_pos hbad]
  unfold do_compare_training train_comparison_models
  simp only [Option.getD_some]
  rw [hsplit, runGrid_append_ok trainer out _ _ _ hgoodtr htr, runGrid, hbadcell]
  simp [List.map_map, Function.comp]

/-- Claim C8 witness: one valid config before the invalid one. -/
theorem invalid_config_aborts_witness :
    do_compare_training (fun _ => true) "out" (some [(10 : ℚ)])
        (some ([[⟨"A"⟩]] ++ [⟨"B"⟩, ⟨"C"⟩] :: [])) 1 5 =
      ⟨([[⟨"A"⟩]] : List (List Policy)).map
          (fun c => gridCell "out" [(10 : ℚ)] (0, 10, c)), [],
        some (OrchError.config
          "You can only specify one policy per model for comparison")⟩ :=
  invalid_config_aborts (fun _ => true) "out" 10 [] [[⟨"A"⟩]] [⟨"B"⟩, ⟨"C"⟩] []
    1 5 (by decide) (by decide) (by decide) (fun _ => rfl)

/-- Claim C6: `num_stories.json` is written at most once per comparison
invocation and only after the whole grid succeeded: when the Trainer fails at
grid position m (all earlier cells succeeding), exactly the cells up to and
including the failing invocation have run, no later cell runs, and nothing is
written. -/
theorem summary_only_after_full_grid (trainer : CellCall → Bool) (out : String)
    (ps : List ℚ) (cfgs : List (List Policy)) (runs no_stories m : ℕ)
    (hm : m < (gridTriples runs ps cfgs).length)
    (hok : ∀ c ∈ cfgs, c.length = 1)
    (hbefore : ∀ i (hi : i < m),
      trainer (gridCell out ps ((gridTriples runs ps cfgs).get
        ⟨i, lt_trans hi hm⟩)) = true)
    (hfail : trainer (gridCell out ps ((gridTriples runs ps cfgs).get
      ⟨m, hm⟩)) = false) :
    (∀ (trainer2 : CellCall → Bool) (out2 : String) (eps : Option (List ℚ))
      (cfgs2 : Option (List (List Policy))) (runs2 ns2 : ℕ),
      (do_compare_training trainer2 out2 eps cfgs2 runs2 ns2).writes.length ≤ 1) ∧
    (do_compare_training trainer out (some ps) (some cfgs) runs no_stories).writes
      = [] ∧
    (do_compare_training trainer out (some ps) (some cfgs) runs no_stories).trace
      = ((gridTriples runs ps cfgs).take (m + 1)).map (gridCell out ps) ∧
    (do_compare_training trainer out (some ps) (some cfgs) runs no_stories).err
      = some (OrchError.train (gridCell out ps ((gridTriples runs ps cfgs).get
          ⟨m, hm⟩))) := by
  have hrun := runGrid_fails_at trainer out ps (gridTriples runs ps cfgs) m hm
    (gridTriples_singleton ps cfgs runs hok) hbefore hfail
  have hdc : do_compare_training trainer out (some ps) (some cfgs) runs no_stories
      = ⟨((gridTriples runs ps cfgs).take (m + 1)).map (gridCell out ps), [],
          some (OrchError.train (gridCell out ps ((gridTriples runs ps cfgs).get
            ⟨m, hm⟩)))⟩ := by
    unfold do_compare_training train_comparison_models
    simp only [Option.getD_some]
    rw [hrun]
  refine ⟨?_, by rw [hdc], by rw [hdc], by rw [hdc]⟩
  intro trainer2 out2 eps cfgs2 runs2 ns2
  unfold do_compare_training
  rcases h2 : (train_comparison_models trainer2 out2 eps cfgs2 runs2).2 with _ | e
  · rcases eps with _ | ps2 <;> simp [h2]
  · simp [h2]

/-- Claim C6 witness: the Trainer fails at the cell of the 2nd run, 1st
percentage, 1st policy; the one prior cell ran, nothing later, no summary. -/
theorem summary_only_after_full_grid_witness :
    (∀ (trainer2 : CellCall → Bool) (out2 : String) (eps : Option (List ℚ))
      (cfgs2 : Option (List (List Policy))) (runs2 ns2 : ℕ),
      (do_compare_training trainer2 out2 eps cfgs2 runs2 ns2).writes.length ≤ 1) ∧
    (do_compare_training (fun c => c.run_idx == 1) "out" (some [20])
      (some [[⟨"P"⟩]]) 2 5).writes = [] ∧
    (do_compare_training (fun c => c.run_idx == 1) "out" (some [20])
      (some [[⟨"P"⟩]]) 2 5).trace =
      ((gridTriples 2 [20] [[⟨"P"⟩]]).take 2).map (gridCell "out" [20]) ∧
    (do_compare_training (fun c => c.run_idx == 1) "out" (some [20])
      (some [[⟨"P"⟩]]) 2 5).err =
      some (OrchError.train (gridCell "out" [20] (1, 20, [⟨"P"⟩]))) :=
  summary_only_after_full_grid (fun c => c.run_idx == 1) "out" [20] [[⟨"P"⟩]] 2 5 1
    (by decide) (by decide) (by decide) (by decide)

/-- Claim C2, counterexample: with duplicate percentages `[50, 50]` (one run,
one config) the cells at iterated positions 1 and 2 have round positions 1
and 2, so their (run_index, round_index) pairs differ, yet their output paths
collide — the paths of two cells do not collide only when the pairs match. -/
theorem grid_collision_counterexample :
    ((train_comparison_models (fun _ => true) "out" (some [50, 50])
        (some [[⟨"P"⟩]]) 1).1.map CellCall.output)[0]? =
      ((train_comparison_models (fun _ => true) "out" (some [50, 50])
        (some [[⟨"P"⟩]]) 1).1.map CellCall.output)[1]? ∧
    ((train_comparison_models (fun _ => true) "out" (some [50, 50])
        (some [[⟨"P"⟩]]) 1).1.map CellCall.output)[0]? ≠ none := by
  exact ⟨by decide, by decide⟩

/-- Claim C2 (amended): with every config loading to exactly one policy and
no Trainer failure, the orchestrator invokes the Trainer exactly R*P*K times,
and two cells' output paths are equal exactly when their policy kinds, their
run indices and their COMPUTED round indices (1 + first occurrence of the
percentage value, line 123) all agree — provided the output root is nonempty
without a trailing separator and the policy kinds contain no separator and do
not end in a decimal digit (true of Python class names such as the rasa
policy names). -/
theorem comparison_grid_structure (trainer : CellCall → Bool) (out : String)
    (ps : List ℚ) (cfgs : List (List Policy)) (runs : ℕ) (hruns : 1 ≤ runs)
    (hok : ∀ c ∈ cfgs, c.length = 1) (htr : ∀ c, trainer c = true)
    (hne : out.data ≠ []) (hsl : out.data.getLast? ≠ some '/')
    (hkind : ∀ c ∈ cfgs, ∀ p ∈ c, (∀ ch ∈ p.kind.data, ch ≠ '/') ∧
      (∀ ch ∈ p.kind.data.getLast?, ch.isDigit = false)) :
    (train_comparison_models trainer out (some ps) (some cfgs) runs).2 = none ∧
    (train_comparison_models trainer out (some ps) (some cfgs) runs).1.length
      = runs * (ps.length * cfgs.length) ∧
    ∀ c1 ∈ (train_comparison_models trainer out (some ps) (some cfgs) runs).1,
      ∀ c2 ∈ (train_comparison_models trainer out (some ps) (some cfgs) runs).1,
      (c1.output = c2.output ↔
        c1.kind = c2.kind ∧ c1.run_idx = c2.run_idx ∧ c1.round = c2.round) := by
  rw [train_comparison_models_ok trainer out ps cfgs runs hok htr]
  refine ⟨rfl, by rw [List.length_map, gridTriples_length], ?_⟩
  intro c1 hc1 c2 hc2
  rw [List.mem_map] at hc1 hc2
  obtain ⟨t1, ht1, rfl⟩ := hc1
  obtain ⟨t2, ht2, rfl⟩ := hc2
  obtain ⟨r1, pct1, cfg1⟩ := t1
  obtain ⟨r2, pct2, cfg2⟩ := t2
  obtain ⟨-, -, hcfg1⟩ := gridTriples_mem runs ps cfgs _ ht1
  obtain ⟨-, -, hcfg2⟩ := gridTriples_mem runs ps cfgs _ ht2
  obtain ⟨p1, hp1⟩ := List.length_eq_one.mp (hok _ hcfg1)
  obtain ⟨p2, hp2⟩ := List.length_eq_one.mp (hok _ hcfg2)
  simp only at hp1 hp2
  subst hp1
  subst hp2
  have hk1 := hkind _ hcfg1 p1 (by simp)
  have hk2 := hkind _ hcfg2 p2 (by simp)
  constructor
  · intro hout
    have hout' : runPath out (r1 + 1) p1.kind (List.indexOf pct1 ps + 1)
        = runPath out (r2 + 1) p2.kind (List.indexOf pct2 ps + 1) := hout
    obtain ⟨hR, hN, hK⟩ := runPath_inj out (r1 + 1) (r2 + 1)
      (List.indexOf pct1 ps + 1) (List.indexOf pct2 ps + 1) p1.kind p2.kind
      hne hsl hk1.1 hk2.1 (fun c hc => hk1.2 c hc) (fun c hc => hk2.2 c hc) hout'
    exact ⟨hN, hR, hK⟩
  · rintro ⟨hkk, hrr, hkr⟩
    show runPath out (r1 + 1) p1.kind (List.indexOf pct1 ps + 1)
      = runPath out (r2 + 1) p2.kind (List.indexOf pct2 ps + 1)
    have h1 : r1 + 1 = r2 + 1 := hrr
    have h2 : p1.kind = p2.kind := hkk
    have h3 : List.indexOf pct1 ps + 1 = List.indexOf pct2 ps + 1 := hkr
    rw [h1, h2, h3]

/-- Claim C2 witness: a 1 × 2 × 2 grid with the two standard policy kinds. -/
theorem comparison_grid_structure_witness :
    (train_comparison_models (fun _ => true) "out" (some [10, 20])
      (some [[⟨"MemoizationPolicy"⟩], [⟨"KerasPolicy"⟩]]) 1).2 = none ∧
    (train_comparison_models (fun _ => true) "out" (some [10, 20])
      (some [[⟨"MemoizationPolicy"⟩], [⟨"KerasPolicy"⟩]]) 1).1.length
      = 1 * (([10, 20] : List ℚ).length *
        ([[⟨"MemoizationPolicy"⟩], [⟨"KerasPolicy"⟩]] :
          List (List Policy)).length) ∧
    ∀ c1 ∈ (train_comparison_models (fun _ => true) "out" (some [10, 20])
      (some [[⟨"MemoizationPolicy"⟩], [⟨"KerasPolicy"⟩]]) 1).1,
      ∀ c2 ∈ (train_comparison_models (fun _ => true) "out" (some [10, 20])
        (some [[⟨"MemoizationPolicy"⟩], [⟨"KerasPolicy"⟩]]) 1).1,
      (c1.output = c2.output ↔
        c1.kind = c2.kind ∧ c1.run_idx = c2.run_idx ∧ c1.round = c2.round) :=
  comparison_grid_structure (fun _ => true) "out" [10, 20]
    [[⟨"MemoizationPolicy"⟩], [⟨"KerasPolicy"⟩]] 1 (by decide) (by decide)
    (fun _ => rfl) (by decide) (by decide) (by decide)
